import Mathlib

/-!
Verification development for `src/isofit/utils/atm_interpolation.py`.

The Python module is embedded shallowly:

* machine floats become exact rationals (`ℚ`); the few places where IEEE
  special values matter (the smoother's elementwise division) use the
  explicit value type `FVal` with `nan`/`inf` constructors and numpy's
  division semantics for a zero denominator;
* `scipy.linalg.inv` raising `LinAlgError` on a singular matrix is modelled
  by `solve3` returning `Except.error` exactly when the determinant of the
  3x3 normal-equations matrix is zero (in exact arithmetic a matrix is
  invertible iff its determinant is nonzero);
* the Python `try/except` around the per-band solve becomes the `match` in
  `fitBand` that maps `Except.error` to the all-zero coefficient row;
* raster handles become lists / index functions; `np.linspace(0, L, n+1,
  dtype=int)` becomes the exact integer cut points `k * L / n` (floor
  division), whose first and last elements are exactly `0` and `L` just as
  numpy pins the endpoint;
* `scipy.ndimage.gaussian_filter` (an external library primitive) is
  modelled as a finite-stencil linear correlation with an arbitrary kernel;
  every property proved about the smoother uses only linearity and
  zero-preservation, which hold for the real Gaussian kernel as well;
* statements about Python exceptions (`TypeError` from subscripting `None`
  at line 134, `NameError` from the undefined `ray_argw` at line 244) are
  modelled with `Except.error` carrying the exception text.
-/

namespace AtmInterp

/-- A geolocation triple `(lat, lon, elev)` as stored in a locations raster
(three location bands, line 103 context). -/
abbrev Loc : Type := ℚ × ℚ × ℚ

/-- Line 103: `loc_scaling = np.array([1e6, 1e6, 0.01])`. -/
def loc_scaling : Loc := (1000000, 1000000, 1/100)

/-- Componentwise product with `loc_scaling` (lines 104 and 131:
`reference_locations * loc_scaling`, `x *= loc_scaling`). -/
def scaleLoc (x : Loc) : Loc :=
  (x.1 * loc_scaling.1, x.2.1 * loc_scaling.2.1, x.2.2 * loc_scaling.2.2)

/-- Numpy `np.isclose(a, b)` with the default tolerances
`rtol = 1e-5`, `atol = 1e-8`: `|a - b| <= atol + rtol * |b|`. -/
def np_isclose (a b : ℚ) : Bool :=
  decide (|a - b| ≤ 1/100000000 + (1/100000) * |b|)

/-- Line 127: `np.all(np.isclose(x, nodata_value))` for a 3-component
location. -/
def np_all_isclose (x : Loc) (nd : ℚ) : Bool :=
  np_isclose x.1 nd && np_isclose x.2.1 nd && np_isclose x.2.2 nd

/-- Squared Euclidean distance between two scaled locations (the KDTree
metric). -/
def sqdist (a b : Loc) : ℚ :=
  (a.1 - b.1)^2 + (a.2.1 - b.2.1)^2 + (a.2.2 - b.2.2)^2

/-- Lines 105 and 139: `tree = KDTree(scaled_ref_loc)` followed by
`dists, nn = tree.query(x, nneighbors)`.  Exact k-nearest-neighbour
query: indices of the reference pixels ordered by squared distance to
`x`, truncated to `nneighbors`. -/
def treeQuery (scaled_ref_loc : List Loc) (x : Loc) (nneighbors : ℕ) : List ℕ :=
  ((List.insertionSort (fun p q : ℕ × ℚ => p.2 ≤ q.2)
      ((List.range scaled_ref_loc.length).map
        (fun i => (i, sqdist (scaled_ref_loc.getD i (0, 0, 0)) x)))).map
    Prod.fst).take nneighbors

/-- A 3-vector of rationals. -/
abbrev Vec3 : Type := ℚ × ℚ × ℚ

/-- A 3x3 rational matrix, written out entrywise so that all linear
algebra below is fully computable. -/
structure Mat3 where
  m11 : ℚ
  m12 : ℚ
  m13 : ℚ
  m21 : ℚ
  m22 : ℚ
  m23 : ℚ
  m31 : ℚ
  m32 : ℚ
  m33 : ℚ
deriving DecidableEq

/-- The zero 3x3 matrix. -/
def Mat3.zero : Mat3 := ⟨0, 0, 0, 0, 0, 0, 0, 0, 0⟩

/-- Entrywise sum of two 3x3 matrices. -/
def Mat3.add (A B : Mat3) : Mat3 :=
  ⟨A.m11 + B.m11, A.m12 + B.m12, A.m13 + B.m13,
   A.m21 + B.m21, A.m22 + B.m22, A.m23 + B.m23,
   A.m31 + B.m31, A.m32 + B.m32, A.m33 + B.m33⟩

/-- Outer product `v vᵀ` of a 3-vector with itself. -/
def outer (v : Vec3) : Mat3 :=
  ⟨v.1 * v.1, v.1 * v.2.1, v.1 * v.2.2,
   v.2.1 * v.1, v.2.1 * v.2.1, v.2.1 * v.2.2,
   v.2.2 * v.1, v.2.2 * v.2.1, v.2.2 * v.2.2⟩

/-- Determinant of a 3x3 matrix (cofactor expansion along the first
row). -/
def det3 (A : Mat3) : ℚ :=
  A.m11 * (A.m22 * A.m33 - A.m23 * A.m32)
    - A.m12 * (A.m21 * A.m33 - A.m23 * A.m31)
    + A.m13 * (A.m21 * A.m32 - A.m22 * A.m31)

/-- First column of `A` replaced by `b` (for Cramer's rule). -/
def replCol1 (A : Mat3) (b : Vec3) : Mat3 :=
  ⟨b.1, A.m12, A.m13, b.2.1, A.m22, A.m23, b.2.2, A.m32, A.m33⟩

/-- Second column of `A` replaced by `b`. -/
def replCol2 (A : Mat3) (b : Vec3) : Mat3 :=
  ⟨A.m11, b.1, A.m13, A.m21, b.2.1, A.m23, A.m31, b.2.2, A.m33⟩

/-- Third column of `A` replaced by `b`. -/
def replCol3 (A : Mat3) (b : Vec3) : Mat3 :=
  ⟨A.m11, A.m12, b.1, A.m21, A.m22, b.2.1, A.m31, A.m32, b.2.2⟩

/-- Line 153: `inv(X.T @ W @ X) @ X.T @ W @ y`, with `scipy.linalg.inv`
raising `LinAlgError` on a singular matrix.  Solves `A z = b` by Cramer's
rule; fails exactly when `A` is singular (`det3 A = 0`). -/
def solve3 (A : Mat3) (b : Vec3) : Except String Vec3 :=
  if det3 A = 0 then Except.error "LinAlgError: singular matrix"
  else Except.ok (det3 (replCol1 A b) / det3 A,
                  det3 (replCol2 A b) / det3 A,
                  det3 (replCol3 A b) / det3 A)

/-- Line 146: the per-band validity floor, `yv[:, i] > -5`. -/
def validFloor : ℚ := -5

/-- The neighbours (scaled location, band value) whose band value exceeds
the validity floor (line 146, `use = yv[:, i] > -5`). -/
def usedNeighbors (neighbors : List (Loc × ℚ)) : List (Loc × ℚ) :=
  neighbors.filter (fun py => decide (validFloor < py.2))

/-- One row of the design matrix `X` (line 149): a leading one, then the
scaled latitude and longitude of the neighbour; elevation (the third
component) is dropped by `xv[use, :-1]`. -/
def designRow (p : Loc) : Vec3 := (1, p.1, p.2.1)

/-- The normal-equations matrix `Xᵀ X` (the weights `W` of line 150 are
the identity), accumulated as a sum of row outer products. -/
def normalMat (rows : List Vec3) : Mat3 :=
  rows.foldr (fun r M => Mat3.add (outer r) M) Mat3.zero

/-- Componentwise sum of two 3-vectors. -/
def vadd (a b : Vec3) : Vec3 := (a.1 + b.1, a.2.1 + b.2.1, a.2.2 + b.2.2)

/-- Scalar multiple of a 3-vector. -/
def smul (c : ℚ) (v : Vec3) : Vec3 := (c * v.1, c * v.2.1, c * v.2.2)

/-- The right-hand side `Xᵀ y` of the normal equations. -/
def rhsVec (rows : List (Vec3 × ℚ)) : Vec3 :=
  rows.foldr (fun ry b => vadd (smul ry.2 ry.1) b) (0, 0, 0)

/-- The normal-equations matrix for one band built from the valid
neighbours of that band (lines 146-150). -/
def bandNormalMat (neighbors : List (Loc × ℚ)) : Mat3 :=
  normalMat ((usedNeighbors neighbors).map (fun py => designRow py.1))

/-- The normal-equations right-hand side for one band (lines 146-151). -/
def bandRhs (neighbors : List (Loc × ℚ)) : Vec3 :=
  rhsVec ((usedNeighbors neighbors).map (fun py => (designRow py.1, py.2)))

/-- Lines 145-155: fit one atmospheric band.  The `try`/`except` around
the solve maps any failure to the all-zero coefficient row
(`bhat[i, :] = 0`). -/
def fitBand (neighbors : List (Loc × ℚ)) : List ℚ :=
  match solve3 (bandNormalMat neighbors) (bandRhs neighbors) with
  | Except.ok c => [c.1, c.2.1, c.2.2]
  | Except.error _ => [0, 0, 0]

/-- A fitted regression model: one coefficient row per atmospheric band
(`bhat`, line 143). -/
abbrev Model : Type := List (List ℚ)

/-- Lines 139-155: fit a fresh regression model at the scaled location
`x`: query the KDTree over the scaled reference locations, then fit each
atmospheric band on the returned neighbours. -/
def fitModel (reference_locations : List Loc) (reference_state : List (List ℚ))
    (n_atm_bands nneighbors : ℕ) (x : Loc) : Model :=
  let nn := treeQuery (reference_locations.map scaleLoc) x nneighbors
  (List.range n_atm_bands).map (fun i =>
    fitBand (nn.map (fun j =>
      (scaleLoc (reference_locations.getD j (0, 0, 0)),
       (reference_state.getD j []).getD i 0))))

/-- Lines 163-164: evaluate the model at the scaled location:
`A = [1, x1, x2]` (elevation dropped) and `(bhat.T * A).sum(axis=0)`,
i.e. each band's row dotted with `A`. -/
def evalModel (bhat : Model) (x : Loc) : List ℚ :=
  bhat.map (fun r => (List.zipWith (fun a b => a * b) r [1, x.1, x.2.1]).sum)

/-- The per-worker model cache `hash_table` (line 112), keyed by the
segmentation label. -/
abbrev Cache : Type := List (ℤ × Model)

/-- What happened at one target pixel: skipped as nodata (line 127-129),
or evaluated with a model; `fresh` records whether the model was fitted
at this pixel (as opposed to taken from the cache). -/
inductive PixelTrace where
  | nodataSkip : PixelTrace
  | evaluated (label : ℤ) (bhat : Model) (fresh : Bool) : PixelTrace
deriving DecidableEq

/-- Number of regression fits (equivalently KDTree queries, which happen
only while fitting) performed at a pixel with the given trace. -/
def PixelTrace.fitCount : PixelTrace → ℕ
  | .nodataSkip => 0
  | .evaluated _ _ fresh => if fresh then 1 else 0

/-- Lines 126-166: processing of a single target pixel inside
`_run_chunk`.  Note that line 134 evaluates `segmentation_img[row, col]`
unconditionally, so when no segmentation grid was supplied
(`segmentation_img is None`) a non-nodata pixel raises `TypeError`; the
`is not None` guard exists only for the cache store at line 160. -/
def processPixel (reference_locations : List Loc) (reference_state : List (List ℚ))
    (n_atm_bands nneighbors : ℕ) (nodata_value : ℚ)
    (segmentation_img : Option (ℕ → ℕ → ℤ)) (row col : ℕ) (loc : Loc)
    (hash_table : Cache) : Except String (List ℚ × Cache × PixelTrace) :=
  if np_all_isclose loc nodata_value then
    Except.ok (List.replicate n_atm_bands nodata_value, hash_table, PixelTrace.nodataSkip)
  else
    match segmentation_img with
    | none => Except.error "TypeError: NoneType object is not subscriptable"
    | some seg =>
      match hash_table.lookup (seg row col) with
      | some bhat =>
          Except.ok (evalModel bhat (scaleLoc loc), hash_table,
                     PixelTrace.evaluated (seg row col) bhat false)
      | none =>
          Except.ok
            (evalModel (fitModel reference_locations reference_state n_atm_bands
                nneighbors (scaleLoc loc)) (scaleLoc loc),
             (seg row col,
              fitModel reference_locations reference_state n_atm_bands nneighbors
                (scaleLoc loc)) :: hash_table,
             PixelTrace.evaluated (seg row col)
               (fitModel reference_locations reference_state n_atm_bands nneighbors
                 (scaleLoc loc)) true)

/-- The pixel loop of `_run_chunk` (lines 112-166) over a list of
`(row, col, location)` pixels in raster scan order, threading the
per-worker cache and collecting the per-pixel outputs and traces. -/
def run_chunk (reference_locations : List Loc) (reference_state : List (List ℚ))
    (n_atm_bands nneighbors : ℕ) (nodata_value : ℚ)
    (segmentation_img : Option (ℕ → ℕ → ℤ)) :
    List (ℕ × ℕ × Loc) → Cache → Except String (List (List ℚ) × Cache × List PixelTrace)
  | [], hash_table => Except.ok ([], hash_table, [])
  | p :: rest, hash_table =>
    match processPixel reference_locations reference_state n_atm_bands nneighbors
        nodata_value segmentation_img p.1 p.2.1 p.2.2 hash_table with
    | Except.error e => Except.error e
    | Except.ok (out, ht2, tr) =>
      match run_chunk reference_locations reference_state n_atm_bands nneighbors
          nodata_value segmentation_img rest ht2 with
      | Except.error e => Except.error e
      | Except.ok (outs, ht3, trs) => Except.ok (out :: outs, ht3, tr :: trs)

/-- Lines 114-124: the pixels of one worker's row range in scan order
(rows `start_line..stop_line`, all columns of each row). -/
def chunkPixels (start_line stop_line n_input_samples : ℕ)
    (input_locations : ℕ → ℕ → Loc) : List (ℕ × ℕ × Loc) :=
  ((List.range (stop_line - start_line)).map (fun r => start_line + r)).flatMap
    (fun row => (List.range n_input_samples).map
      (fun col => (row, col, input_locations row col)))

/-- The keyword arguments assembled for `ray.init` (lines 241-244). -/
structure RayArgs where
  ignore_reinit_error : Bool
  local_mode : Bool
  num_cpus : Option ℤ
deriving DecidableEq

/-- Lines 241-246: building the `ray.init` arguments.  When
`n_cores != -1` the source executes `ray_argw['num_cpus'] = n_cores`,
but no name `ray_argw` was ever defined (the dict is called `rayargs`),
so Python raises `NameError` before `ray.init` is reached.  Only the
default `n_cores == -1` path survives. -/
def setupRayArgs (n_cores : ℤ) : Except String RayArgs :=
  let rayargs : RayArgs := ⟨true, n_cores == 1, none⟩
  if n_cores ≠ -1 then Except.error "NameError: name ray_argw is not defined"
  else Except.ok rayargs

/-- Line 250: `n_cores = min(n_ray_cores, n_input_lines)` — the worker
count is the available core count capped at the input line count. -/
def nWorkers (n_ray_cores n_input_lines : ℕ) : ℕ := min n_ray_cores n_input_lines

/-- Line 255: `np.linspace(0, n_input_lines, num=n_cores+1, dtype=int)`.
The evenly spaced cut points truncated to integers are `k * L / n` (floor
division); numpy pins the endpoint so the last element is exactly `L`,
which floor division reproduces (`n * L / n = L`). -/
def line_sections (n_input_lines n_cores : ℕ) : List ℕ :=
  (List.range (n_cores + 1)).map (fun k => k * n_input_lines / n_cores)

/-- Lines 261-266: the dispatched row ranges — one worker task per pair
of consecutive cut points `(line_sections[l], line_sections[l+1])` for
`l` in `range(len(line_sections) - 1)`. -/
def lineRanges (n_input_lines n_cores : ℕ) : List (ℕ × ℕ) :=
  (List.range ((line_sections n_input_lines n_cores).length - 1)).map
    (fun l => ((line_sections n_input_lines n_cores).getD l 0,
               (line_sections n_input_lines n_cores).getD (l + 1) 0))

/-- One band of the output raster, as a grid of rational values indexed
over `ℤ × ℤ` (the finite raster extended by its boundary handling). -/
abbrev Band : Type := ℤ → ℤ → ℚ

/-- A finite convolution stencil: a list of `(row offset, col offset,
weight)` triples. -/
abbrev Kernel : Type := List (ℤ × ℤ × ℚ)

/-- The external `scipy.ndimage.gaussian_filter` primitive (lines 283 and
287), modelled as a finite-stencil linear correlation.  The properties
proved below use only that the filter is a weighted sum, which holds for
the actual Gaussian kernel. -/
def gaussian_filter (kernel : Kernel) (g : Band) : Band :=
  fun i j => (kernel.map (fun w => w.2.2 * g (i - w.1) (j - w.2.1))).sum

/-- An IEEE-style value: a finite rational, or one of the special values
numpy produces on division by zero. -/
inductive FVal where
  | num (q : ℚ) : FVal
  | nan : FVal
  | inf : FVal
  | ninf : FVal
deriving DecidableEq

/-- Numpy elementwise division (line 289, `VV/WW`): division by zero
yields `nan` for `0/0` and signed infinity otherwise, instead of raising. -/
def npDiv (a b : ℚ) : FVal :=
  if b = 0 then (if a = 0 then FVal.nan else if 0 < a then FVal.inf else FVal.ninf)
  else FVal.num (a / b)

/-- Line 280: `null = atm_img[..., n] == -9999`.  The nodata sentinel is
hard-coded here; the `nodata_value` parameter of `atm_interpolation` is
not consulted by the smoothing block. -/
def smoother_null (g : Band) (i j : ℤ) : Bool := g i j == (-9999 : ℚ)

/-- Lines 281-282: the band with its nodata positions zeroed
(`V[null] = 0`). -/
def smoother_V (g : Band) : Band := fun i j => if smoother_null g i j then 0 else g i j

/-- Lines 285-286: the validity mask (`W = 0*band + 1; W[null] = 0`):
one at valid pixels, zero at (hard-coded) nodata pixels. -/
def smoother_W (g : Band) : Band := fun i j => if smoother_null g i j then 0 else 1

/-- Lines 280-290: normalized-convolution smoothing of one band — blur
the zeroed values and the mask with the same kernel, then divide
elementwise. -/
def smoothBand (kernel : Kernel) (g : Band) (i j : ℤ) : FVal :=
  npDiv (gaussian_filter kernel (smoother_V g) i j)
        (gaussian_filter kernel (smoother_W g) i j)

/-- Lines 278-290: the smoothing pass is applied only when
`gaussian_smoothing_sigma > 0`; otherwise the band is left untouched.
The `nodata_value` parameter is in scope in the source but unused by
this block (the sentinel is hard-coded as `-9999`). -/
def smoother (nodata_value gaussian_smoothing_sigma : ℚ) (kernel : Kernel)
    (g : Band) (i j : ℤ) : FVal :=
  if 0 < gaussian_smoothing_sigma then smoothBand kernel g i j else FVal.num (g i j)

/-! ## Scheduler partition lemmas (claim C6) -/

lemma line_sections_length (L n : ℕ) : (line_sections L n).length = n + 1 := by
  simp [line_sections]

lemma line_sections_getD (L n k : ℕ) (hk : k < n + 1) :
    (line_sections L n).getD k 0 = k * L / n := by
  unfold line_sections
  rw [List.getD_eq_getElem?_getD, List.getElem?_map, List.getElem?_range hk]
  rfl

lemma lineRanges_eq (L n : ℕ) :
    lineRanges L n = (List.range n).map (fun l => (l * L / n, (l + 1) * L / n)) := by
  unfold lineRanges
  rw [line_sections_length]
  simp only [Nat.add_sub_cancel]
  refine List.map_congr_left ?_
  intro l hl
  rw [List.mem_range] at hl
  rw [line_sections_getD L n l (by omega), line_sections_getD L n (l + 1) (by omega)]

lemma cutpoint_mono (L n : ℕ) {k l : ℕ} (h : k ≤ l) : k * L / n ≤ l * L / n :=
  Nat.div_le_div_right (Nat.mul_le_mul_right L h)

lemma exists_cut_interval (g : ℕ → ℕ) (r : ℕ) :
    ∀ n, g 0 ≤ r → r < g n → ∃ l, l < n ∧ g l ≤ r ∧ r < g (l + 1)
  | 0, h0, hn => absurd (lt_of_le_of_lt h0 hn) (lt_irrefl (g 0))
  | n + 1, h0, hn => by
    by_cases hc : g n ≤ r
    · exact ⟨n, Nat.lt_succ_self n, hc, hn⟩
    · obtain ⟨l, hl, h1, h2⟩ := exists_cut_interval g r n h0 (lt_of_not_le hc)
      exact ⟨l, Nat.lt_succ_of_lt hl, h1, h2⟩

/-- C6: for every worker count `n_workers` in `[1, n_lines]`, the source
dispatches exactly one worker task per row range (`lineRanges` has length
`n_workers`, mirroring the loop of lines 261-266), the union of the
dispatched ranges is exactly `[0, n_lines)` (a row is below `n_lines` iff
some dispatched range contains it), and the ranges are pairwise ordered
(each range ends no later than any later range begins), so there are no
gaps and no overlaps. -/
theorem partition_covers_exactly (L n : ℕ) (hn : 1 ≤ n) (hL : n ≤ L) :
    (lineRanges L n).length = n ∧
    (∀ r, r < L ↔ ∃ p ∈ lineRanges L n, p.1 ≤ r ∧ r < p.2) ∧
    (lineRanges L n).Pairwise (fun p q => p.2 ≤ q.1) := by
  have hn0 : 0 < n := hn
  rw [lineRanges_eq]
  refine ⟨by simp, ?_, ?_⟩
  · intro r
    constructor
    · intro hr
      have h0 : 0 * L / n ≤ r := by simp
      have hN : r < n * L / n := by rw [Nat.mul_div_cancel_left L hn0]; exact hr
      obtain ⟨l, hl, ha, hb⟩ := exists_cut_interval (fun k => k * L / n) r n h0 hN
      exact ⟨(l * L / n, (l + 1) * L / n),
        List.mem_map.mpr ⟨l, List.mem_range.mpr hl, rfl⟩, ha, hb⟩
    · rintro ⟨p, hp, ha, hb⟩
      obtain ⟨l, hl, rfl⟩ := List.mem_map.mp hp
      rw [List.mem_range] at hl
      calc r < (l + 1) * L / n := hb
        _ ≤ n * L / n := cutpoint_mono L n (by omega)
        _ = L := Nat.mul_div_cancel_left L hn0
  · exact List.Pairwise.map _ (fun a b hab => cutpoint_mono L n (by omega))
      (List.pairwise_lt_range n)

/-- Witness for `partition_covers_exactly` at `n_lines = 5`,
`n_workers = 2` (ranges `[0,2)` and `[2,5)`). -/
theorem partition_covers_exactly_witness :
    (1 ≤ 2 ∧ 2 ≤ 5) ∧ (lineRanges 5 2).length = 2 :=
  ⟨⟨by decide, by decide⟩, (partition_covers_exactly 5 2 (by decide) (by decide)).1⟩

/-! ## Nodata pass-through (claim C9) -/

/-- C9: a target pixel whose location matches the nodata sentinel within
numpy's `isclose` tolerance on all three coordinates is emitted as nodata
in every atmosphere band, the cache is untouched, and its trace is the
nodata skip — which performs zero fits and zero KDTree queries
(`fitModel`, the only caller of `treeQuery`, is reached only in the
`fresh` evaluation branch). -/
theorem nodata_pixel_passthrough (rl : List Loc) (rs : List (List ℚ)) (nb k : ℕ)
    (nd : ℚ) (seg : Option (ℕ → ℕ → ℤ)) (row col : ℕ) (loc : Loc) (ht : Cache)
    (h : np_all_isclose loc nd = true) :
    processPixel rl rs nb k nd seg row col loc ht =
      Except.ok (List.replicate nb nd, ht, PixelTrace.nodataSkip) ∧
    PixelTrace.fitCount PixelTrace.nodataSkip = 0 := by
  constructor
  · simp [processPixel, h]
  · rfl

/-- Witness for `nodata_pixel_passthrough`: the all-sentinel location
`(-9999, -9999, -9999)` with the default sentinel. -/
theorem nodata_pixel_passthrough_witness :
    np_all_isclose ((-9999 : ℚ), -9999, -9999) (-9999) = true ∧
    (processPixel [] [] 2 5 (-9999) none 0 0 ((-9999 : ℚ), -9999, -9999) [] =
        Except.ok (List.replicate 2 (-9999), [], PixelTrace.nodataSkip) ∧
      PixelTrace.fitCount PixelTrace.nodataSkip = 0) :=
  ⟨by norm_num [np_all_isclose, np_isclose],
   nodata_pixel_passthrough [] [] 2 5 (-9999) none 0 0 ((-9999 : ℚ), -9999, -9999) []
     (by norm_num [np_all_isclose, np_isclose])⟩

/-! ## Degrade-to-zero on fit failure (claims C8, C10) -/

lemma fitBand_of_det_zero (neighbors : List (Loc × ℚ))
    (h : det3 (bandNormalMat neighbors) = 0) : fitBand neighbors = [0, 0, 0] := by
  rw [fitBand, solve3, if_pos h]

lemma processPixel_some_ok (rl : List Loc) (rs : List (List ℚ)) (nb k : ℕ) (nd : ℚ)
    (seg : ℕ → ℕ → ℤ) (row col : ℕ) (loc : Loc) (ht : Cache) :
    ∃ res, processPixel rl rs nb k nd (some seg) row col loc ht = Except.ok res := by
  by_cases h : np_all_isclose loc nd = true
  · exact ⟨(List.replicate nb nd, ht, PixelTrace.nodataSkip), by simp [processPixel, h]⟩
  · cases hl : ht.lookup (seg row col) with
    | some bhat =>
      exact ⟨(evalModel bhat (scaleLoc loc), ht, PixelTrace.evaluated (seg row col) bhat false),
        by simp [processPixel, h, hl]⟩
    | none =>
      exact ⟨(evalModel (fitModel rl rs nb k (scaleLoc loc)) (scaleLoc loc),
          (seg row col, fitModel rl rs nb k (scaleLoc loc)) :: ht,
          PixelTrace.evaluated (seg row col) (fitModel rl rs nb k (scaleLoc loc)) true),
        by simp [processPixel, h, hl]⟩

lemma run_chunk_some_ok (rl : List Loc) (rs : List (List ℚ)) (nb k : ℕ) (nd : ℚ)
    (seg : ℕ → ℕ → ℤ) :
    ∀ (pixels : List (ℕ × ℕ × Loc)) (ht : Cache),
      (run_chunk rl rs nb k nd (some seg) pixels ht).isOk = true
  | [], ht => rfl
  | p :: rest, ht => by
    obtain ⟨⟨out, ht2, tr⟩, hp⟩ := processPixel_some_ok rl rs nb k nd seg p.1 p.2.1 p.2.2 ht
    have hrest := run_chunk_some_ok rl rs nb k nd seg rest ht2
    rcases hr : run_chunk rl rs nb k nd (some seg) rest ht2 with e | ⟨outs, ht3, trs⟩
    · rw [hr] at hrest; cases hrest
    · simp [run_chunk, hp, hr, Except.isOk, Except.toBool]

/-- C8: whenever the normal-equations matrix of a band is singular (in
exact arithmetic, the only way `scipy.linalg.inv` fails, hence the only
way the `try` body of lines 152-155 raises), the band's coefficient row is
`[0, 0, 0]`, and a worker run over any pixel list with a segmentation grid
still returns a result rather than an error: the failure aborts neither
the pixel nor the worker nor the run. -/
theorem singular_fit_degrades_to_zero (neighbors : List (Loc × ℚ)) (rl : List Loc)
    (rs : List (List ℚ)) (nb k : ℕ) (nd : ℚ) (seg : ℕ → ℕ → ℤ)
    (pixels : List (ℕ × ℕ × Loc)) (ht : Cache)
    (h : det3 (bandNormalMat neighbors) = 0) :
    fitBand neighbors = [0, 0, 0] ∧
    (run_chunk rl rs nb k nd (some seg) pixels ht).isOk = true :=
  ⟨fitBand_of_det_zero neighbors h, run_chunk_some_ok rl rs nb k nd seg pixels ht⟩

/-- Witness for `singular_fit_degrades_to_zero`: one neighbour at the
origin with band value `1` (valid, since `1 > -5`) gives the rank-one
normal matrix with zero determinant. -/
theorem singular_fit_degrades_to_zero_witness :
    det3 (bandNormalMat [(((0 : ℚ), 0, 0), (1 : ℚ))]) = 0 ∧
    (fitBand [(((0 : ℚ), 0, 0), (1 : ℚ))] = [0, 0, 0] ∧
      (run_chunk [] [] 1 1 (-9999) (some (fun _ _ => 0)) [] []).isOk = true) :=
  ⟨by norm_num [bandNormalMat, usedNeighbors, validFloor, normalMat, designRow, outer,
      Mat3.add, Mat3.zero, det3],
   singular_fit_degrades_to_zero [(((0 : ℚ), 0, 0), (1 : ℚ))] [] [] 1 1 (-9999)
     (fun _ _ => 0) [] []
     (by norm_num [bandNormalMat, usedNeighbors, validFloor, normalMat, designRow, outer,
        Mat3.add, Mat3.zero, det3])⟩

lemma det3_zero_mat : det3 Mat3.zero = 0 := by
  simp [det3, Mat3.zero]

lemma det3_one_outer (v : Vec3) : det3 (Mat3.add (outer v) Mat3.zero) = 0 := by
  simp only [det3, Mat3.add, Mat3.zero, outer]
  ring

lemma det3_two_outer (v w : Vec3) :
    det3 (Mat3.add (outer v) (Mat3.add (outer w) Mat3.zero)) = 0 := by
  simp only [det3, Mat3.add, Mat3.zero, outer]
  ring

/-- C10: the per-band solve is total, and in the two degenerate cases of
lines 144-155 — no neighbour value above the validity floor (`use` empty,
so `X` has zero rows) and fewer valid neighbours than the three predictor
columns (underdetermined system) — the normal-equations matrix is
singular, the modelled `except` branch fires, and the band's coefficient
row is exactly `[0, 0, 0]`; `fitBand` returns a row rather than
propagating the failure. -/
theorem underdetermined_fit_zero (neighbors : List (Loc × ℚ))
    (h : (usedNeighbors neighbors).length < 3) : fitBand neighbors = [0, 0, 0] := by
  apply fitBand_of_det_zero
  unfold bandNormalMat
  rcases hu : usedNeighbors neighbors with - | ⟨a, - | ⟨b, - | ⟨c, rest⟩⟩⟩
  · simpa [normalMat] using det3_zero_mat
  · simpa [normalMat] using det3_one_outer (designRow a.1)
  · simpa [normalMat] using det3_two_outer (designRow a.1) (designRow b.1)
  · rw [hu] at h; simp at h; omega

/-- Witness for `underdetermined_fit_zero`: a single neighbour whose band
value `-7` is below the validity floor, so the valid subset is empty. -/
theorem underdetermined_fit_zero_witness :
    (usedNeighbors [(((0 : ℚ), 0, 0), (-7 : ℚ))]).length < 3 ∧
    fitBand [(((0 : ℚ), 0, 0), (-7 : ℚ))] = [0, 0, 0] :=
  ⟨by norm_num [usedNeighbors, validFloor],
   underdetermined_fit_zero [(((0 : ℚ), 0, 0), (-7 : ℚ))]
     (by norm_num [usedNeighbors, validFloor])⟩

/-! ## Model shape (claim C5) -/

lemma fitBand_length (neighbors : List (Loc × ℚ)) : (fitBand neighbors).length = 3 := by
  rw [fitBand]
  split <;> rfl

/-- C5 counterexample: the claim says a fitted model row has length 2
(shape `(n_atm_bands, 2)`); at an explicit input the fitted row for the
single atmospheric band has length 3, not 2 (`bhat` is allocated as
`np.zeros((n_atm_bands, xv.shape[1]))` with `xv.shape[1] = 3` and the
solved coefficient vector has one entry per column of
`X = [1, lat, lon]`). -/
theorem model_row_length_two_counterexample :
    ¬ ((fitModel [(0, 0, 0)] [[1]] 1 1 (0, 0, 0)).getD 0 []).length = 2 := by
  norm_num [fitModel, treeQuery, scaleLoc, loc_scaling, sqdist, List.insertionSort,
    List.orderedInsert, fitBand, solve3, bandNormalMat, bandRhs, usedNeighbors,
    validFloor, normalMat, rhsVec, designRow, outer, Mat3.add, Mat3.zero, det3,
    vadd, smul, List.range_succ]

/-- C5 amended: every fitted model is a coefficient matrix of shape
`(n_atm_bands, 3)` — one row per atmospheric band, each row holding an
intercept and two slope coefficients for the `[1, lat_scaled, lon_scaled]`
predictors, with elevation excluded from the design matrix
(`designRow` drops the third coordinate). -/
theorem model_shape (rl : List Loc) (rs : List (List ℚ)) (nb k : ℕ) (x : Loc)
    (r : List ℚ) (hr : r ∈ fitModel rl rs nb k x) :
    (fitModel rl rs nb k x).length = nb ∧ r.length = 3 := by
  constructor
  · simp [fitModel]
  · simp only [fitModel, List.mem_map] at hr
    obtain ⟨i, -, rfl⟩ := hr
    exact fitBand_length _

/-- Witness for `model_shape` at a concrete fit whose single row is
`[0, 0, 0]`. -/
theorem model_shape_witness :
    [(0 : ℚ), 0, 0] ∈ fitModel [(0, 0, 0)] [[1]] 1 1 (0, 0, 0) ∧
    ((fitModel [((0 : ℚ), 0, 0)] [[1]] 1 1 (0, 0, 0)).length = 1 ∧
      ([(0 : ℚ), 0, 0] : List ℚ).length = 3) :=
  ⟨by norm_num [fitModel, treeQuery, scaleLoc, loc_scaling, sqdist, List.insertionSort,
      List.orderedInsert, fitBand, solve3, bandNormalMat, bandRhs, usedNeighbors,
      validFloor, normalMat, rhsVec, designRow, outer, Mat3.add, Mat3.zero, det3,
      vadd, smul, List.range_succ],
   model_shape [(0, 0, 0)] [[1]] 1 1 (0, 0, 0) [(0 : ℚ), 0, 0]
     (by norm_num [fitModel, treeQuery, scaleLoc, loc_scaling, sqdist, List.insertionSort,
        List.orderedInsert, fitBand, solve3, bandNormalMat, bandRhs, usedNeighbors,
        validFloor, normalMat, rhsVec, designRow, outer, Mat3.add, Mat3.zero, det3,
        vadd, smul, List.range_succ])⟩

/-! ## Cache consistency (claim C7) -/

lemma processPixel_cache_preserved {rl : List Loc} {rs : List (List ℚ)} {nb k : ℕ}
    {nd : ℚ} {seg : Option (ℕ → ℕ → ℤ)} {row col : ℕ} {loc : Loc} {ht ht2 : Cache}
    {out : List ℚ} {tr : PixelTrace}
    (hrun : processPixel rl rs nb k nd seg row col loc ht = Except.ok (out, ht2, tr))
    {lab : ℤ} {m : Model} (hm : ht.lookup lab = some m) : ht2.lookup lab = some m := by
  rcases seg with - | s
  · by_cases h : np_all_isclose loc nd = true
    · simp [processPixel, h] at hrun
      obtain ⟨-, h2, -⟩ := hrun
      exact h2 ▸ hm
    · simp [processPixel, h] at hrun
  · by_cases h : np_all_isclose loc nd = true
    · simp [processPixel, h] at hrun
      obtain ⟨-, h2, -⟩ := hrun
      exact h2 ▸ hm
    · cases hl : ht.lookup (s row col) with
      | some bhat =>
        simp [processPixel, h, hl] at hrun
        obtain ⟨-, h2, -⟩ := hrun
        exact h2 ▸ hm
      | none =>
        simp [processPixel, h, hl] at hrun
        obtain ⟨-, h2, -⟩ := hrun
        have hne : lab ≠ s row col := by
          intro e
          rw [e, hl] at hm
          cases hm
        rw [← h2]
        simpa [List.lookup, beq_eq_false_iff_ne.mpr hne] using hm

lemma processPixel_trace_in_cache {rl : List Loc} {rs : List (List ℚ)} {nb k : ℕ}
    {nd : ℚ} {seg : Option (ℕ → ℕ → ℤ)} {row col : ℕ} {loc : Loc} {ht ht2 : Cache}
    {out : List ℚ} {lab : ℤ} {m : Model} {fr : Bool}
    (hrun : processPixel rl rs nb k nd seg row col loc ht =
      Except.ok (out, ht2, PixelTrace.evaluated lab m fr)) :
    ht2.lookup lab = some m := by
  rcases seg with - | s
  · by_cases h : np_all_isclose loc nd = true <;> simp [processPixel, h] at hrun
  · by_cases h : np_all_isclose loc nd = true
    · simp [processPixel, h] at hrun
    · cases hl : ht.lookup (s row col) with
      | some bhat =>
        simp [processPixel, h, hl] at hrun
        obtain ⟨-, h2, h3, h4, -⟩ := hrun
        rw [← h2, ← h3, ← h4]
        exact hl
      | none =>
        simp [processPixel, h, hl] at hrun
        obtain ⟨-, h2, h3, h4, -⟩ := hrun
        rw [← h2, ← h3, ← h4]
        simp [List.lookup]

lemma run_chunk_cache_preserved {rl : List Loc} {rs : List (List ℚ)} {nb k : ℕ}
    {nd : ℚ} {seg : Option (ℕ → ℕ → ℤ)} :
    ∀ (pixels : List (ℕ × ℕ × Loc)) (ht : Cache) (outs : List (List ℚ)) (htF : Cache)
      (trs : List PixelTrace),
      run_chunk rl rs nb k nd seg pixels ht = Except.ok (outs, htF, trs) →
      ∀ (lab : ℤ) (m : Model), ht.lookup lab = some m → htF.lookup lab = some m := by
  intro pixels
  induction pixels with
  | nil =>
    intro ht outs htF trs hrun lab m hm
    simp [run_chunk] at hrun
    obtain ⟨-, h2, -⟩ := hrun
    exact h2 ▸ hm
  | cons p rest ih =>
    intro ht outs htF trs hrun lab m hm
    rcases hp : processPixel rl rs nb k nd seg p.1 p.2.1 p.2.2 ht with e | ⟨out, ht2, tr⟩
    · simp [run_chunk, hp] at hrun
    · rcases hr : run_chunk rl rs nb k nd seg rest ht2 with e2 | ⟨outs2, ht3, trs2⟩
      · simp [run_chunk, hp, hr] at hrun
      · simp [run_chunk, hp, hr] at hrun
        obtain ⟨-, h2, -⟩ := hrun
        exact h2 ▸ ih ht2 outs2 ht3 trs2 hr lab m (processPixel_cache_preserved hp hm)

lemma run_chunk_trace_in_cache {rl : List Loc} {rs : List (List ℚ)} {nb k : ℕ}
    {nd : ℚ} {seg : Option (ℕ → ℕ → ℤ)} :
    ∀ (pixels : List (ℕ × ℕ × Loc)) (ht : Cache) (outs : List (List ℚ)) (htF : Cache)
      (trs : List PixelTrace),
      run_chunk rl rs nb k nd seg pixels ht = Except.ok (outs, htF, trs) →
      ∀ (lab : ℤ) (m : Model) (fr : Bool),
        PixelTrace.evaluated lab m fr ∈ trs → htF.lookup lab = some m := by
  intro pixels
  induction pixels with
  | nil =>
    intro ht outs htF trs hrun lab m fr hmem
    simp [run_chunk] at hrun
    obtain ⟨-, -, h3⟩ := hrun
    rw [h3] at hmem
    cases hmem
  | cons p rest ih =>
    intro ht outs htF trs hrun lab m fr hmem
    rcases hp : processPixel rl rs nb k nd seg p.1 p.2.1 p.2.2 ht with e | ⟨out, ht2, tr⟩
    · simp [run_chunk, hp] at hrun
    · rcases hr : run_chunk rl rs nb k nd seg rest ht2 with e2 | ⟨outs2, ht3, trs2⟩
      · simp [run_chunk, hp, hr] at hrun
      · simp [run_chunk, hp, hr] at hrun
        obtain ⟨-, h2, h3⟩ := hrun
        rw [← h3] at hmem
        rcases List.mem_cons.mp hmem with htr | htr
        · subst htr
          exact h2 ▸ run_chunk_cache_preserved rest ht2 outs2 ht3 trs2 hr lab m
            (processPixel_trace_in_cache hp)
        · exact h2 ▸ ih ht2 outs2 ht3 trs2 hr lab m fr htr

/-- C7: within one worker's row range (the scan-order pixel list of
`chunkPixels`), any two pixels that were evaluated under the same
segmentation label used the identical coefficient matrix.  The per-worker
`hash_table` is insert-only (a model is stored only when the label is
absent, line 160-161), so the model recorded for a label never changes:
the first pixel with the label fits and caches it, every later pixel
receives the cached model unchanged. -/
theorem label_cache_reuse (rl : List Loc) (rs : List (List ℚ)) (nb k : ℕ) (nd : ℚ)
    (seg : ℕ → ℕ → ℤ) (start_line stop_line n_input_samples : ℕ)
    (input_locations : ℕ → ℕ → Loc) (outs : List (List ℚ)) (htF : Cache)
    (trs : List PixelTrace) (lab : ℤ) (m m2 : Model) (fr fr2 : Bool)
    (hrun : run_chunk rl rs nb k nd (some seg)
        (chunkPixels start_line stop_line n_input_samples input_locations) [] =
      Except.ok (outs, htF, trs))
    (hmem : PixelTrace.evaluated lab m fr ∈ trs)
    (hmem2 : PixelTrace.evaluated lab m2 fr2 ∈ trs) : m = m2 := by
  have e1 := run_chunk_trace_in_cache _ _ _ _ _ hrun lab m fr hmem
  have e2 := run_chunk_trace_in_cache _ _ _ _ _ hrun lab m2 fr2 hmem2
  rw [e1] at e2
  exact Option.some.inj e2

/-- Witness for `label_cache_reuse`: a 1-row, 2-column chunk whose two
pixels share label 7; the first fits (fresh), the second reuses the
cached model. -/
theorem label_cache_reuse_witness :
    run_chunk [(0, 0, 0)] [[1]] 1 1 (-9999) (some (fun _ _ => 7))
        (chunkPixels 0 1 2 (fun _ _ => (1, 1, 0))) [] =
      Except.ok ([[0], [0]], [(7, [[0, 0, 0]])],
        [PixelTrace.evaluated 7 [[0, 0, 0]] true,
         PixelTrace.evaluated 7 [[0, 0, 0]] false]) ∧
    ([[(0 : ℚ), 0, 0]] : Model) = [[(0 : ℚ), 0, 0]] := by
  have hrun : run_chunk [(0, 0, 0)] [[1]] 1 1 (-9999) (some (fun _ _ => 7))
      (chunkPixels 0 1 2 (fun _ _ => (1, 1, 0))) [] =
      Except.ok ([[0], [0]], [(7, [[0, 0, 0]])],
        [PixelTrace.evaluated 7 [[0, 0, 0]] true,
         PixelTrace.evaluated 7 [[0, 0, 0]] false]) := by
    norm_num [run_chunk, chunkPixels, processPixel, np_all_isclose, np_isclose,
      evalModel, fitModel, treeQuery, scaleLoc, loc_scaling, sqdist,
      List.insertionSort, List.orderedInsert, fitBand, solve3, bandNormalMat,
      bandRhs, usedNeighbors, validFloor, normalMat, rhsVec, designRow, outer,
      Mat3.add, Mat3.zero, det3, vadd, smul, List.range_succ, List.lookup]
  refine ⟨hrun, ?_⟩
  exact label_cache_reuse [(0, 0, 0)] [[1]] 1 1 (-9999) (fun _ _ => 7) 0 1 2
    (fun _ _ => (1, 1, 0)) [[0], [0]] [(7, [[0, 0, 0]])]
    [PixelTrace.evaluated 7 [[0, 0, 0]] true, PixelTrace.evaluated 7 [[0, 0, 0]] false]
    7 [[0, 0, 0]] [[0, 0, 0]] true false hrun (by simp) (by simp)

/-! ## Missing-segmentation crash (claim C1) -/

/-- C1: with no segmentation grid supplied (`segmentation_img is None`), a
non-nodata target pixel is not fit per-pixel — line 134 subscripts `None`
and the worker raises `TypeError`, so the run does not complete normally
(in particular the spec's 4x4 no-segmentation scenario aborts at its first
pixel).  Shown here at the explicit pixel `(0, 0)` with location
`(0, 0, 0)` and the default sentinel. -/
theorem no_segmentation_pixel_crashes :
    processPixel [(0, 0, 0)] [[1, 2]] 2 5 (-9999) none 0 0 ((0 : ℚ), 0, 0) [] =
      Except.error "TypeError: NoneType object is not subscriptable" := by
  norm_num [processPixel, np_all_isclose, np_isclose]

/-! ## Scheduler dispatch bug (claim C3) -/

/-- C3: requesting an explicit core count (`n_cores = 4 ≠ -1`) makes the
source execute `ray_argw['num_cpus'] = n_cores` (line 244) where the name
`ray_argw` was never bound, raising `NameError` before any worker is
dispatched; only the default `n_cores = -1` reaches `ray.init`, and in
that surviving path the worker count is the available core count capped
at the line count (`nWorkers 4 2 = 2`, line 250). -/
theorem explicit_cores_raise_nameerror :
    setupRayArgs 4 = Except.error "NameError: name ray_argw is not defined" ∧
    setupRayArgs (-1) = Except.ok ⟨true, false, none⟩ ∧
    nWorkers 4 2 = 2 := by
  refine ⟨by norm_num [setupRayArgs], by norm_num [setupRayArgs], by decide⟩

/-! ## Smoother mask keys on a hard-coded sentinel (claim C4) -/

/-- C4: the Smoother's validity mask tests against the literal `-9999`
(line 280), not the configured `nodata_value`.  With the configured
sentinel `-1`, a pixel holding `-1` is not masked (`smoother_null`
false, mask weight 1), while a pixel holding `-9999` is masked and
zeroed even though `-9999` is not the configured sentinel — so the mask
is 0 exactly at hard-coded `-9999` pixels, contradicting the claim for
any configured `nodata_value ≠ -9999`. -/
theorem smoother_mask_ignores_configured_nodata :
    smoother_null (fun _ _ => (-1 : ℚ)) 0 0 = false ∧
    smoother_W (fun _ _ => (-1 : ℚ)) 0 0 = 1 ∧
    smoother_null (fun _ _ => (-9999 : ℚ)) 0 0 = true ∧
    smoother_W (fun _ _ => (-9999 : ℚ)) 0 0 = 0 ∧
    smoother_V (fun _ _ => (-9999 : ℚ)) 0 0 = 0 := by
  refine ⟨?_, ?_, ?_, ?_, ?_⟩ <;> simp [smoother_null, smoother_W, smoother_V]

/-! ## All-nodata band smoothing produces NaN (claim C2) -/

lemma smoothBand_allnodata (kernel : Kernel) (g : Band) (h : ∀ i j, g i j = -9999)
    (i j : ℤ) : smoothBand kernel g i j = FVal.nan := by
  have hnull : ∀ a b : ℤ, smoother_null g a b = true := by
    intro a b
    simp [smoother_null, h a b]
  have hV : gaussian_filter kernel (smoother_V g) i j = 0 := by
    unfold gaussian_filter
    apply List.sum_eq_zero
    intro q hq
    obtain ⟨w, -, rfl⟩ := List.mem_map.mp hq
    simp [smoother_V, hnull]
  have hW : gaussian_filter kernel (smoother_W g) i j = 0 := by
    unfold gaussian_filter
    apply List.sum_eq_zero
    intro q hq
    obtain ⟨w, -, rfl⟩ := List.mem_map.mp hq
    simp [smoother_W, hnull]
  rw [smoothBand, hV, hW]
  simp [npDiv]

/-- C2: on a band that is entirely nodata the blurred validity mask is
zero everywhere, and the smoother does not leave the band as nodata — it
divides `0/0` elementwise and writes `nan` (numpy emits a warning, not an
error, for float division by zero), so NaN propagates into the output
raster; there is no guard for the degenerate all-nodata band.  Shown at
an explicit pixel with a concrete one-tap kernel, for the constant
`-9999` band. -/
theorem allnodata_band_smooths_to_nan :
    smoothBand [(0, 0, 1)] (fun _ _ => (-9999 : ℚ)) 0 0 = FVal.nan ∧
    FVal.nan ≠ FVal.num (-9999) :=
  ⟨smoothBand_allnodata [(0, 0, 1)] (fun _ _ => (-9999 : ℚ)) (fun _ _ => rfl) 0 0,
   by simp⟩

end AtmInterp
